import Mathlib

/-!
Shallow embedding of the `pristank-frontend` client runtime core
(`src/game-display.ts`, `src/boot.ts`): the discrete-event engine
(event queue, drain loop `updateAt`, tick driver), the element
lifecycle operations (`addElement`, `removeElement`, `getElement`),
the key-input command dispatch, and the WebSocket construction
hand-shake / timeout logic of `initGameDisplay`.

JS numbers are modelled as rationals (`ℚ`); JS `Map` as an
association list with first-match lookup; thrown exceptions as
`Except String`; JS object reference identity as a `tag : Nat`
drawn from a fresh counter.
-/

/-- Lookup in a JS `Map`, modelled as first-match search in an
association list. -/
def mapGet {α β : Type} [DecidableEq α] : List (α × β) → α → Option β
  | [], _ => none
  | (k, v) :: rest, key => if k = key then some v else mapGet rest key

/-- `Map.set`: replace the binding of `key` when present, else append. -/
def mapSet {α β : Type} [DecidableEq α] : List (α × β) → α → β → List (α × β)
  | [], key, val => [(key, val)]
  | (k, v) :: rest, key, val =>
    if k = key then (key, val) :: rest else (k, v) :: mapSet rest key val

/-- `Map.delete`: remove the binding of `key`. -/
def mapDelete {α β : Type} [DecidableEq α] (l : List (α × β)) (key : α) :
    List (α × β) :=
  l.filter (fun kv => kv.1 ≠ key)

/-- Element UIDs (`UID` in `utils/type`). -/
abbrev UID := Nat

/-- The part of an `ElementData` catalog entry (`element.ts`) that
`game-display.ts` reads: default `width`/`height` used when the
optional arguments of `addElement` are absent, and the `group`
field tested by `removeElement` (`element.type.group == "tank"`). -/
structure ElementData where
  group : Option String
  width : ℚ
  height : ℚ
deriving DecidableEq

/-- A constructed `GameElement`. The `tag` models JS object identity:
each `new GameElement(...)` yields a fresh tag, so `tag` equality is
reference equality; `outerContainer` (the stage child) is identified
with the same tag. -/
structure GameElement where
  tag : Nat
  type : ElementData
  x : ℚ
  y : ℚ
  rad : Option ℚ
  width : ℚ
  height : ℚ
  bgColor : Option Nat
deriving DecidableEq

/-- A `Player` as used by `game-display.ts`: compared against removed
elements through its `element` reference. -/
structure Player where
  name : String
  element : GameElement
deriving DecidableEq

/-- The element / roster state of a `GameDisplay`, with callback
bookkeeping: `stage` is the list of `outerContainer` tags attached to
`app.stage`, `setPlayersCalls` records every invocation of the
roster-changed callback `setPlayers` (when registered), and `nextTag`
is the fresh-identity counter. -/
structure GameDisplay where
  elemData : List (String × ElementData)
  elemList : List (UID × GameElement)
  stage : List Nat
  players : List Player
  hasSetPlayers : Bool
  setPlayersCalls : List (List Player)
  nextTag : Nat
deriving DecidableEq

/-- `GameDisplay.addElement` (game-display.ts lines 170-180).
`this.elemData.get(name)!!` has no runtime effect in JS: when `name`
is not catalogued, `data` is `undefined` and the subsequent
dereference (`data.width` / `data.height` for the defaulted sizes, or
the field reads inside the `GameElement` constructor) raises a
`TypeError`, modelled as `Except.error`. Otherwise the new element is
installed in `elemList` (overwriting any existing binding of `uid`)
and its container is appended to the stage. -/
def addElement (g : GameDisplay) (uid : UID) (name : String) (x y : ℚ)
    (rad : Option ℚ) (width height : Option ℚ) (bgColor : Option Nat) :
    Except String (GameDisplay × GameElement) :=
  match mapGet g.elemData name with
  | none => .error "TypeError: cannot read properties of undefined"
  | some data =>
    let element : GameElement :=
      { tag := g.nextTag, type := data, x := x, y := y, rad := rad,
        width := width.getD data.width, height := height.getD data.height,
        bgColor := bgColor }
    .ok ({ g with
            elemList := mapSet g.elemList uid element,
            stage := g.stage ++ [element.tag],
            nextTag := g.nextTag + 1 }, element)

/-- `GameDisplay.removeElement` (game-display.ts lines 186-198): no-op
for an unknown `uid`; otherwise detaches the container, deletes the
map entry, and — when the element's catalog group is `"tank"` —
filters the roster by element reference and invokes `setPlayers`
(once) when registered. -/
def removeElement (g : GameDisplay) (uid : UID) : GameDisplay :=
  match mapGet g.elemList uid with
  | none => g
  | some element =>
    let g1 : GameDisplay :=
      { g with
        stage := g.stage.filter (fun t => t ≠ element.tag),
        elemList := mapDelete g.elemList uid }
    if element.type.group = some "tank" then
      let ps := g1.players.filter (fun p => p.element ≠ element)
      if g1.hasSetPlayers then
        { g1 with players := ps, setPlayersCalls := g1.setPlayersCalls ++ [ps] }
      else
        { g1 with players := ps }
    else g1

/-- `GameDisplay.getElement` (game-display.ts lines 205-207). -/
def getElement (g : GameDisplay) (uid : UID) : Option GameElement :=
  mapGet g.elemList uid

/-- A `GameEvent` (`event.ts`): timestamp `t` plus the resolved
handler; `callback` closes over the payload (`event.params`), acts on
the simulation state `σ`, and models a JS `throw` as `Except.error`. -/
structure GameEvent (σ : Type) where
  t : ℚ
  callback : σ → Except String σ

/-- Outcome of one drain pass (`updateAt`): the returned boolean, the
remaining queue, the state, the `console.error` diagnostics
`(timestamp, error)`, and how many times `errorCallback` ran. -/
structure DrainResult (σ : Type) where
  ok : Bool
  queue : List (GameEvent σ)
  state : σ
  diags : List (ℚ × String)
  errCalls : Nat

/-- Was the front event due at `atTime`? `updateAt`'s loop guard:
`atTime == undefined || front().t <= atTime`. -/
def isDue {σ : Type} (atTime : Option ℚ) (e : GameEvent σ) : Bool :=
  match atTime with
  | none => true
  | some tLimit => decide (e.t ≤ tLimit)

/-- `GameDisplay.updateAt` (game-display.ts lines 146-161): pop-and-apply
due events from the front; on a handler error, report `(t, error)` to
the console, invoke `errorCallback` when registered, and return
`false` with the events behind the failing one still queued. -/
def updateAt {σ : Type} (hasErrorCallback : Bool) (atTime : Option ℚ) :
    List (GameEvent σ) → σ → DrainResult σ
  | [], s => ⟨true, [], s, [], 0⟩
  | e :: rest, s =>
    if isDue atTime e then
      match e.callback s with
      | .error msg =>
        ⟨false, rest, s, [(e.t, msg)], if hasErrorCallback then 1 else 0⟩
      | .ok s2 => updateAt hasErrorCallback atTime rest s2
    else ⟨true, e :: rest, s, [], 0⟩

/-- Sequential application of a list of events (the reference meaning
of "apply these events in order"). -/
def applyEvents {σ : Type} : List (GameEvent σ) → σ → Except String σ
  | [], s => .ok s
  | e :: rest, s =>
    match e.callback s with
    | .error msg => .error msg
    | .ok s2 => applyEvents rest s2

/-- State of the ticker closure in the `GameDisplay` constructor
(game-display.ts lines 60-69): the local `timer`, the event queue and
simulation state reached so far, and the accumulated observations. -/
structure Ticker (σ : Type) where
  timer : ℚ
  queue : List (GameEvent σ)
  state : σ
  diags : List (ℚ × String)
  errCalls : Nat

/-- One ticker callback: `this.updateAt(timer); timer += elapsedMS`.
The drain runs at the old `timer`; the increment happens afterwards
and unconditionally (`updateAt` never throws — it catches handler
errors internally and returns `false`, which the ticker ignores). -/
def tick {σ : Type} (hasCb : Bool) (tk : Ticker σ) (elapsedMS : ℚ) :
    Ticker σ :=
  let r := updateAt hasCb (some tk.timer) tk.queue tk.state
  { timer := tk.timer + elapsedMS,
    queue := r.queue,
    state := r.state,
    diags := tk.diags ++ r.diags,
    errCalls := tk.errCalls + r.errCalls }

/-- Run the ticker over a list of per-tick elapsed times. -/
def runTicks {σ : Type} (hasCb : Bool) : Ticker σ → List ℚ → Ticker σ
  | tk, [] => tk
  | tk, e :: es => runTicks hasCb (tick hasCb tk e) es

example :
    (updateAt false (some (5 : ℚ)) [⟨3, fun (s : Nat) => .ok (s + 1)⟩] 0).state
      = 1 := by decide

example :
    (runTicks true
      (⟨0, [⟨0, fun (_ : Nat) => .error "boom"⟩,
            ⟨0, fun (s : Nat) => .ok (s + 1)⟩], 0, [], 0⟩ : Ticker Nat)
      [1, 1]).state = 1 := by
  norm_num [runTicks, tick, updateAt, isDue]

/-- When every due event at the front applies cleanly, `updateAt` is
exactly takeWhile/dropWhile on the due prefix. -/
lemma updateAt_ok {σ : Type} (hasCb : Bool) (atTime : Option ℚ) :
    ∀ (q : List (GameEvent σ)) (s s' : σ),
      applyEvents (q.takeWhile (isDue atTime)) s = .ok s' →
      updateAt hasCb atTime q s = ⟨true, q.dropWhile (isDue atTime), s', [], 0⟩
  | [], s, s', h => by
    simp only [List.takeWhile_nil, applyEvents, Except.ok.injEq] at h
    simp [updateAt, List.dropWhile_nil, h]
  | e :: rest, s, s', h => by
    by_cases hd : isDue atTime e
    · rw [List.takeWhile_cons_of_pos hd] at h
      rw [List.dropWhile_cons_of_pos hd]
      rw [updateAt]
      rw [if_pos hd]
      cases hcb : e.callback s with
      | error msg =>
        rw [applyEvents, hcb] at h
        exact absurd h (by simp)
      | ok s2 =>
        rw [applyEvents, hcb] at h
        exact updateAt_ok hasCb atTime rest s2 s' h
    · rw [List.takeWhile_cons_of_neg hd] at h
      simp only [applyEvents, Except.ok.injEq] at h
      rw [List.dropWhile_cons_of_neg hd, updateAt, if_neg hd, h]

/-- For a queue sorted by non-decreasing timestamp, the due prefix is
all the due events. -/
lemma sorted_takeWhile_due {σ : Type} (T : ℚ) :
    ∀ (q : List (GameEvent σ)), q.Pairwise (fun a b => a.t ≤ b.t) →
      q.takeWhile (isDue (some T)) = q.filter (isDue (some T))
  | [], _ => rfl
  | e :: rest, h => by
    rcases List.pairwise_cons.mp h with ⟨hall, htail⟩
    by_cases hd : isDue (some T) e
    · rw [List.takeWhile_cons_of_pos hd, List.filter_cons_of_pos hd,
        sorted_takeWhile_due T rest htail]
    · rw [List.takeWhile_cons_of_neg hd, List.filter_cons_of_neg hd]
      symm
      rw [List.filter_eq_nil_iff]
      intro x hx
      have hTe : ¬ e.t ≤ T := by simpa [isDue] using hd
      simp only [isDue, decide_eq_true_eq]
      exact fun hc => hTe (le_trans (hall x hx) hc)

/-- For a queue sorted by non-decreasing timestamp, what remains after
dropping the due prefix is exactly the not-yet-due events. -/
lemma sorted_dropWhile_due {σ : Type} (T : ℚ) :
    ∀ (q : List (GameEvent σ)), q.Pairwise (fun a b => a.t ≤ b.t) →
      q.dropWhile (isDue (some T)) = q.filter (fun e => !(isDue (some T) e))
  | [], _ => rfl
  | e :: rest, h => by
    rcases List.pairwise_cons.mp h with ⟨hall, htail⟩
    by_cases hd : isDue (some T) e
    · rw [List.dropWhile_cons_of_pos hd, sorted_dropWhile_due T rest htail,
        List.filter_cons_of_neg (by simp [hd])]
    · have hd' : isDue (some T) e = false := by
        cases hIs : isDue (some T) e
        · rfl
        · exact absurd hIs hd
      have hTe : ¬ e.t ≤ T := by simpa [isDue] using hd'
      rw [List.dropWhile_cons_of_neg hd,
        List.filter_cons_of_pos (by rw [hd']; rfl)]
      congr 1
      symm
      rw [List.filter_eq_self]
      intro x hx
      have hxT : ¬ x.t ≤ T := fun hc => hTe (le_trans (hall x hx) hc)
      simp [isDue, hxT]

/-- Claim C2: for a queue sorted by non-decreasing timestamp whose due
prefix applies cleanly, a drain pass at time `T` pops and applies
exactly the records with timestamp ≤ `T` (the due prefix equals all
due records), in queue order, leaving exactly the records with
timestamp > `T` queued, with no diagnostic and no error-callback
invocation. -/
theorem c2_drainPrefix {σ : Type} (hasCb : Bool) (T : ℚ)
    (q : List (GameEvent σ)) (s s' : σ)
    (hsorted : q.Pairwise (fun a b => a.t ≤ b.t))
    (happly : applyEvents (q.takeWhile (isDue (some T))) s = .ok s') :
    q.takeWhile (isDue (some T)) = q.filter (isDue (some T))
    ∧ updateAt hasCb (some T) q s =
        ⟨true, q.filter (fun e => !(isDue (some T) e)), s', [], 0⟩ := by
  refine ⟨sorted_takeWhile_due T q hsorted, ?_⟩
  rw [updateAt_ok hasCb (some T) q s s' happly,
    sorted_dropWhile_due T q hsorted]

/-- An event whose handler records its timestamp onto the state. -/
def recEvent (t : ℚ) : GameEvent (List ℚ) :=
  ⟨t, fun s => .ok (s ++ [t])⟩

/-- Witness for C2: timestamps `[1000, 2000, 3000]`, draining at
`2500` applies exactly the first two and leaves the third queued;
draining the remainder at `3000` applies the third. -/
theorem c2_drainPrefix_witness :
    updateAt true (some 2500)
        [recEvent 1000, recEvent 2000, recEvent 3000] ([] : List ℚ)
      = ⟨true, [recEvent 3000], [1000, 2000], [], 0⟩
    ∧ updateAt true (some 3000) [recEvent 3000] [1000, 2000]
      = ⟨true, [], [1000, 2000, 3000], [], 0⟩ := by
  constructor
  · have h1 := (c2_drainPrefix true 2500
      [recEvent 1000, recEvent 2000, recEvent 3000] [] [1000, 2000]
      (by norm_num [List.pairwise_cons, recEvent])
      (by norm_num [List.takeWhile_cons, isDue, recEvent, applyEvents])).2
    rw [h1]
    have hf : List.filter (fun e => !(isDue (some 2500) e))
        [recEvent 1000, recEvent 2000, recEvent 3000] = [recEvent 3000] := by
      norm_num [List.filter_cons, isDue, recEvent]
    rw [hf]
  · have h2 := (c2_drainPrefix true 3000 [recEvent 3000]
      [1000, 2000] [1000, 2000, 3000]
      (by norm_num [List.pairwise_cons, recEvent])
      (by norm_num [List.takeWhile_cons, isDue, recEvent, applyEvents])).2
    rw [h2]
    have hf : List.filter (fun e => !(isDue (some 3000) e))
        [recEvent 3000] = [] := by
      norm_num [List.filter_cons, isDue, recEvent]
    rw [hf]

/-- Claim C1, corrected: within the drain pass in which a popped
event's handler fails, the events queued behind it are not applied
(the pass returns with exactly them still queued), the timestamp and
error are reported to the diagnostic sink, and the error callback —
when registered — is invoked exactly once. (The original claim's
"nor on any later tick" is refuted by `c1_failStop_counterexample`:
the ticker ignores `updateAt`'s return value and drains again.) -/
theorem c1_failStop {σ : Type} (hasCb : Bool) (T : ℚ)
    (pre post : List (GameEvent σ)) (bad : GameEvent σ)
    (s sPre : σ) (msg : String)
    (hpre : applyEvents pre s = .ok sPre)
    (hdue : ∀ e ∈ pre, e.t ≤ T)
    (hbadDue : bad.t ≤ T)
    (hfail : bad.callback sPre = .error msg) :
    updateAt hasCb (some T) (pre ++ bad :: post) s =
      ⟨false, post, sPre, [(bad.t, msg)], if hasCb then 1 else 0⟩ := by
  induction pre generalizing s with
  | nil =>
    simp only [applyEvents, Except.ok.injEq] at hpre
    subst hpre
    rw [List.nil_append, updateAt,
      if_pos (show isDue (some T) bad by simp [isDue, hbadDue]), hfail]
  | cons e rest ih =>
    rw [List.cons_append, updateAt,
      if_pos (show isDue (some T) e by
        simp [isDue, hdue e (List.mem_cons_self e rest)])]
    rw [applyEvents] at hpre
    cases hcb : e.callback s with
    | error m => rw [hcb] at hpre; exact absurd hpre (by simp)
    | ok s2 =>
      rw [hcb] at hpre
      exact ih s2 hpre (fun x hx => hdue x (List.mem_cons_of_mem e hx))

/-- Witness for the corrected C1: queue `[good₁, bad, behind]` all due
at `T = 10`; the pass stops at `bad`, leaves `behind` queued, records
one diagnostic and one error-callback invocation. -/
theorem c1_failStop_witness :
    updateAt true (some 10)
        [⟨1, fun (s : List ℚ) => .ok (s ++ [1])⟩,
         ⟨2, fun _ => .error "boom"⟩,
         ⟨3, fun s => .ok (s ++ [3])⟩] []
      = ⟨false, [⟨3, fun s => .ok (s ++ [3])⟩], [1], [(2, "boom")], 1⟩ := by
  have h := c1_failStop (σ := List ℚ) true 10
    [⟨1, fun s => .ok (s ++ [1])⟩]
    [⟨3, fun s => .ok (s ++ [3])⟩]
    ⟨2, fun _ => .error "boom"⟩
    [] [1] "boom"
    (by norm_num [applyEvents])
    (by norm_num)
    (by norm_num)
    rfl
  simpa using h

/-- Counterexample to C1 as stated: after a handler failure the
engine resumes draining on the next tick. With queue
`[fail@0, record@0]` and two ticks of 1ms each, the first tick's
drain fails at the first event (one error-callback invocation, one
diagnostic), yet the second tick applies the event queued behind the
failure: the final state records timestamp `0`, and the queue is
empty. The claim says that event is never applied on any later tick. -/
theorem c1_failStop_counterexample :
    ((runTicks true
      (⟨0, [⟨0, fun (_ : List ℚ) => .error "boom"⟩, recEvent 0], [], [], 0⟩ :
        Ticker (List ℚ))
      [1, 1]).state = [0]
    ∧ (runTicks true
      (⟨0, [⟨0, fun (_ : List ℚ) => .error "boom"⟩, recEvent 0], [], [], 0⟩ :
        Ticker (List ℚ))
      [1, 1]).errCalls = 1
    ∧ (runTicks true
      (⟨0, [⟨0, fun (_ : List ℚ) => .error "boom"⟩, recEvent 0], [], [], 0⟩ :
        Ticker (List ℚ))
      [1, 1]).queue = []) := by
  norm_num [runTicks, tick, updateAt, isDue, recEvent]

/-- A handler that succeeds on every state (the spec's "must not throw
for well-formed payloads"). -/
def callbackTotal {σ : Type} (e : GameEvent σ) : Prop :=
  ∀ u, ∃ v, e.callback u = .ok v

/-- Applying a list of total handlers always succeeds. -/
lemma applyEvents_total {σ : Type} :
    ∀ (l : List (GameEvent σ)), (∀ ev ∈ l, callbackTotal ev) →
      ∀ s : σ, ∃ s', applyEvents l s = .ok s'
  | [], _, s => ⟨s, rfl⟩
  | e :: rest, h, s => by
    obtain ⟨v, hv⟩ := h e (List.mem_cons_self e rest) s
    obtain ⟨s', hs'⟩ := applyEvents_total rest
      (fun x hx => h x (List.mem_cons_of_mem e hx)) v
    exact ⟨s', by rw [applyEvents, hv]; exact hs'⟩

/-- The timer after one tick: the elapsed time is added after the
drain, independently of the handlers. -/
lemma tick_timer {σ : Type} (hasCb : Bool) (tk : Ticker σ) (e : ℚ) :
    (tick hasCb tk e).timer = tk.timer + e := rfl

/-- The timer after a run of ticks is the initial timer plus the total
elapsed time, independently of the handlers. -/
lemma runTicks_timer {σ : Type} (hasCb : Bool) :
    ∀ (es : List ℚ) (tk : Ticker σ),
      (runTicks hasCb tk es).timer = tk.timer + es.sum
  | [], tk => by simp [runTicks]
  | e :: es, tk => by
    rw [runTicks, runTicks_timer hasCb es, tick_timer]
    rw [List.sum_cons]
    ring

/-- One tick with total handlers drains exactly the events due at the
pre-tick timer. -/
lemma tick_queue {σ : Type} (hasCb : Bool) (tk : Ticker σ) (e : ℚ)
    (hok : ∀ ev ∈ tk.queue, callbackTotal ev) :
    (tick hasCb tk e).queue = tk.queue.dropWhile (isDue (some tk.timer)) := by
  obtain ⟨s', hs'⟩ := applyEvents_total
    (tk.queue.takeWhile (isDue (some tk.timer)))
    (fun x hx => hok x ((List.takeWhile_sublist _).subset hx)) tk.state
  show (updateAt hasCb (some tk.timer) tk.queue tk.state).queue = _
  rw [updateAt_ok hasCb (some tk.timer) tk.queue tk.state s' hs']

/-- Draining later subsumes draining earlier: dropping events due at
`T` and then those due at `T' ≥ T` is dropping those due at `T'`. -/
lemma dropWhile_due_mono {σ : Type} (T T' : ℚ) (hTT : T ≤ T') :
    ∀ q : List (GameEvent σ),
      (q.dropWhile (isDue (some T))).dropWhile (isDue (some T'))
        = q.dropWhile (isDue (some T'))
  | [] => rfl
  | e :: rest => by
    by_cases hd : isDue (some T) e
    · have hd' : isDue (some T') e := by
        simp only [isDue, decide_eq_true_eq] at hd ⊢
        exact le_trans hd hTT
      rw [List.dropWhile_cons_of_pos hd, List.dropWhile_cons_of_pos hd',
        dropWhile_due_mono T T' hTT rest]
    · rw [List.dropWhile_cons_of_neg hd]

/-- After a non-empty run of ticks with a sorted queue of total
handlers and non-negative elapsed times, the remaining queue is what
is still not due at the last drain time: the initial timer plus every
elapsed time except the final tick's (whose increment happens after
that tick's drain). -/
lemma runTicks_queue {σ : Type} (hasCb : Bool) :
    ∀ (es : List ℚ) (tk : Ticker σ),
      es ≠ [] →
      tk.queue.Pairwise (fun a b => a.t ≤ b.t) →
      (∀ ev ∈ tk.queue, callbackTotal ev) →
      (∀ x ∈ es, 0 ≤ x) →
      (runTicks hasCb tk es).queue =
        tk.queue.dropWhile (isDue (some (tk.timer + es.dropLast.sum)))
  | [], _, hne, _, _, _ => absurd rfl hne
  | [e], tk, _, _, hok, _ => by
    rw [runTicks, runTicks, tick_queue hasCb tk e hok]
    norm_num [List.dropLast]
  | e :: e2 :: es, tk, _, hs, hok, hnn => by
    rw [runTicks]
    have hq : (tick hasCb tk e).queue
        = tk.queue.dropWhile (isDue (some tk.timer)) :=
      tick_queue hasCb tk e hok
    have htail := runTicks_queue hasCb (e2 :: es) (tick hasCb tk e)
      (by simp)
      (by rw [hq]; exact hs.sublist (List.dropWhile_sublist _))
      (by rw [hq]
          exact fun x hx => hok x ((List.dropWhile_sublist _).subset hx))
      (fun x hx => hnn x (List.mem_cons_of_mem e hx))
    rw [htail, hq, tick_timer]
    have hsumnn : 0 ≤ (e2 :: es).dropLast.sum :=
      List.sum_nonneg (fun x hx =>
        hnn x (List.mem_cons_of_mem e (List.mem_of_mem_dropLast hx)))
    have hTT : tk.timer ≤ tk.timer + e + (e2 :: es).dropLast.sum := by
      have h0e : 0 ≤ e := hnn e (List.mem_cons_self e (e2 :: es))
      linarith
    rw [dropWhile_due_mono tk.timer (tk.timer + e + (e2 :: es).dropLast.sum)
      hTT tk.queue]
    have hdl : (e :: e2 :: es).dropLast.sum = e + (e2 :: es).dropLast.sum := by
      rw [show (e :: e2 :: es).dropLast = e :: (e2 :: es).dropLast from rfl,
        List.sum_cons]
    rw [hdl]
    ring_nf

/-- Claim C8: the clock is advanced only by the tick driver — each
tick adds its elapsed time after the drain, whatever the handlers do
(no hypothesis on callbacks) — and under non-negative elapsed times
the timer is non-decreasing across any run of ticks. Handlers and
element-lifecycle operations act only on the simulation state `σ`
(the `timer` is a constructor-closure local they cannot reach). -/
theorem c8_clockMonotone {σ : Type} (hasCb : Bool) (tk : Ticker σ) (e : ℚ)
    (es : List ℚ) (hnn : ∀ x ∈ es, 0 ≤ x) :
    (tick hasCb tk e).timer = tk.timer + e
    ∧ tk.timer ≤ (runTicks hasCb tk es).timer := by
  refine ⟨tick_timer hasCb tk e, ?_⟩
  rw [runTicks_timer]
  have hs : 0 ≤ es.sum := List.sum_nonneg hnn
  linarith

/-- Witness for C8 at a concrete ticker and elapsed times. -/
theorem c8_clockMonotone_witness :
    (∀ x ∈ ([1, 2] : List ℚ), 0 ≤ x)
    ∧ (tick true (⟨0, [], 0, [], 0⟩ : Ticker Nat) 5).timer = 0 + 5
    ∧ (⟨0, [], 0, [], 0⟩ : Ticker Nat).timer
        ≤ (runTicks true (⟨0, [], 0, [], 0⟩ : Ticker Nat) [1, 2]).timer := by
  have hnn : ∀ x ∈ ([1, 2] : List ℚ), 0 ≤ x := by norm_num
  have h := c8_clockMonotone true (⟨0, [], 0, [], 0⟩ : Ticker Nat) 5 [1, 2] hnn
  exact ⟨hnn, h.1, h.2⟩

/-- Claim C9: each tick drains with the clock accumulated through the
end of the previous tick and adds its own elapsed time only
afterwards. Hence the first tick applies exactly the events with
timestamp ≤ 0, and after a whole run the events still queued are
those with timestamp above the sum of all elapsed times except the
final tick's — i.e. an event with timestamp `t` is first applied on
the tick after the one whose elapsed time brings the accumulated
clock to ≥ `t`. -/
theorem c9_drainUsesPrevTickClock {σ : Type} (hasCb : Bool)
    (q : List (GameEvent σ)) (s : σ) (e0 : ℚ) (es : List ℚ)
    (hsorted : q.Pairwise (fun a b => a.t ≤ b.t))
    (hok : ∀ ev ∈ q, callbackTotal ev)
    (hnn : ∀ x ∈ es, 0 ≤ x) (hne : es ≠ []) :
    (tick hasCb (⟨0, q, s, [], 0⟩ : Ticker σ) e0).queue
        = q.dropWhile (isDue (some 0))
    ∧ (runTicks hasCb (⟨0, q, s, [], 0⟩ : Ticker σ) es).queue
        = q.dropWhile (isDue (some es.dropLast.sum)) := by
  constructor
  · have h := tick_queue hasCb (⟨0, q, s, [], 0⟩ : Ticker σ) e0 hok
    simpa using h
  · have h := runTicks_queue hasCb es (⟨0, q, s, [], 0⟩ : Ticker σ)
      hne hsorted hok hnn
    simpa using h

/-- Witness for C9: with events at `[1000, 2000, 3000]`, a first tick
(elapsed 1000) applies nothing (clock still 0); a three-tick run with
elapsed `[1000, 1500, 500]` drains at clock 2500 on its last tick,
leaving only the event at 3000. -/
theorem c9_drainUsesPrevTickClock_witness :
    (tick true
      (⟨0, [recEvent 1000, recEvent 2000, recEvent 3000], [], [], 0⟩ :
        Ticker (List ℚ)) 1000).queue
      = [recEvent 1000, recEvent 2000, recEvent 3000]
    ∧ (runTicks true
      (⟨0, [recEvent 1000, recEvent 2000, recEvent 3000], [], [], 0⟩ :
        Ticker (List ℚ)) [1000, 1500, 500]).queue
      = [recEvent 3000] := by
  have h := c9_drainUsesPrevTickClock true
    [recEvent 1000, recEvent 2000, recEvent 3000] [] 1000 [1000, 1500, 500]
    (by norm_num [List.pairwise_cons, recEvent])
    (by
      intro ev hev
      simp only [List.mem_cons, List.not_mem_nil, or_false] at hev
      rcases hev with rfl | rfl | rfl <;> exact fun u => ⟨_, rfl⟩)
    (by norm_num)
    (by simp)
  refine ⟨?_, ?_⟩
  · rw [h.1]
    norm_num [List.dropWhile_cons, isDue, recEvent]
  · rw [h.2]
    norm_num [List.dropWhile_cons, isDue, recEvent, List.dropLast,
      List.sum_cons, List.sum_nil]

/-- `Map.set` then `Map.get` of the same key yields the new value. -/
lemma mapGet_mapSet_self {α β : Type} [DecidableEq α] :
    ∀ (l : List (α × β)) (k : α) (v : β), mapGet (mapSet l k v) k = some v
  | [], k, v => by simp [mapSet, mapGet]
  | (a, b) :: rest, k, v => by
    by_cases h : a = k
    · simp [mapSet, h, mapGet]
    · simp [mapSet, h, mapGet, mapGet_mapSet_self rest k v]

/-- `Map.delete` then `Map.get` of the same key yields nothing. -/
lemma mapGet_mapDelete_self {α β : Type} [DecidableEq α] :
    ∀ (l : List (α × β)) (k : α), mapGet (mapDelete l k) k = none
  | [], _ => rfl
  | (a, b) :: rest, k => by
    by_cases h : a = k
    · simpa [mapDelete, List.filter_cons, h]
        using mapGet_mapDelete_self rest k
    · simpa [mapDelete, List.filter_cons, h, mapGet]
        using mapGet_mapDelete_self rest k

/-- `addElement` on a catalogued name, explicitly. -/
lemma addElement_some (g : GameDisplay) (uid : UID) (name : String)
    (x y : ℚ) (rad : Option ℚ) (width height : Option ℚ)
    (bgColor : Option Nat) (data : ElementData)
    (hcat : mapGet g.elemData name = some data) :
    addElement g uid name x y rad width height bgColor =
      .ok ({ g with
              elemList := mapSet g.elemList uid
                ⟨g.nextTag, data, x, y, rad, width.getD data.width,
                  height.getD data.height, bgColor⟩,
              stage := g.stage ++ [g.nextTag],
              nextTag := g.nextTag + 1 },
            ⟨g.nextTag, data, x, y, rad, width.getD data.width,
              height.getD data.height, bgColor⟩) := by
  unfold addElement
  rw [hcat]

/-- The element map after a successful `removeElement`. -/
lemma removeElement_elemList (g : GameDisplay) (uid : UID)
    (el : GameElement) (hfound : mapGet g.elemList uid = some el) :
    (removeElement g uid).elemList = mapDelete g.elemList uid := by
  simp only [removeElement, hfound]
  split_ifs <;> rfl

/-- The roster after removing a tank-group element. -/
lemma removeElement_players_tank (g : GameDisplay) (uid : UID)
    (el : GameElement) (hfound : mapGet g.elemList uid = some el)
    (htank : el.type.group = some "tank") :
    (removeElement g uid).players
      = g.players.filter (fun p => p.element ≠ el) := by
  simp only [removeElement, hfound, htank, if_true]
  split_ifs <;> rfl

/-- Removing a tank-group element with the roster callback registered
appends exactly one invocation, carrying the updated roster. -/
lemma removeElement_calls_tank (g : GameDisplay) (uid : UID)
    (el : GameElement) (hfound : mapGet g.elemList uid = some el)
    (htank : el.type.group = some "tank") (hreg : g.hasSetPlayers = true) :
    (removeElement g uid).setPlayersCalls
      = g.setPlayersCalls ++ [g.players.filter (fun p => p.element ≠ el)] := by
  simp only [removeElement, hfound, htank, hreg, if_true]

/-- Claim C3: adding a catalogued element then removing the same uid
leaves `getElement` absent; when the removed element's catalog group
is `"tank"`, every roster entry referencing it is dropped and the
roster-changed callback, when registered, is invoked exactly once
with the updated list. -/
theorem c3_lifecycle (g : GameDisplay) (uid : UID) (name : String)
    (x y : ℚ) (data : ElementData) (g1 : GameDisplay) (el : GameElement)
    (hcat : mapGet g.elemData name = some data)
    (hadd : addElement g uid name x y none none none none = .ok (g1, el)) :
    getElement (removeElement g1 uid) uid = none
    ∧ (el.type.group = some "tank" →
        (removeElement g1 uid).players
            = g1.players.filter (fun p => p.element ≠ el)
        ∧ (g1.hasSetPlayers = true →
            (removeElement g1 uid).setPlayersCalls
              = g1.setPlayersCalls
                  ++ [g1.players.filter (fun p => p.element ≠ el)])) := by
  rw [addElement_some g uid name x y none none none none data hcat] at hadd
  simp only [Except.ok.injEq, Prod.mk.injEq] at hadd
  obtain ⟨hg1, hel⟩ := hadd
  have hfound : mapGet g1.elemList uid = some el := by
    rw [← hg1, ← hel]
    exact mapGet_mapSet_self g.elemList uid _
  refine ⟨?_, fun htank => ⟨?_, fun hreg => ?_⟩⟩
  · rw [getElement, removeElement_elemList g1 uid el hfound]
    exact mapGet_mapDelete_self g1.elemList uid
  · exact removeElement_players_tank g1 uid el hfound htank
  · exact removeElement_calls_tank g1 uid el hfound htank hreg

/-- The `"Tk"` catalog entry used by the concrete witnesses. -/
def tkData : ElementData := ⟨some "tank", 1, 1⟩

/-- The element that `addElement 28 "Tk" 1 1` creates from a display
whose fresh-identity counter is at 7. -/
def elTk : GameElement := ⟨7, tkData, 1, 1, none, 1, 1, none⟩

/-- A display whose roster already tracks the player owning `elTk`. -/
def gw : GameDisplay := ⟨[("Tk", tkData)], [], [], [⟨"A", elTk⟩], true, [], 7⟩

/-- `gw` after `addElement 28 "Tk" 1 1`. -/
def gw1 : GameDisplay :=
  ⟨[("Tk", tkData)], [(28, elTk)], [7], [⟨"A", elTk⟩], true, [], 8⟩

/-- Witness for C3: `addElement(28, "Tk", 1, 1)` then
`removeElement(28)` leaves `getElement 28` absent, drops the player
owning the element, and fires the roster callback once with the
now-empty list. -/
theorem c3_lifecycle_witness :
    getElement (removeElement gw1 28) 28 = none
    ∧ (removeElement gw1 28).players = []
    ∧ (removeElement gw1 28).setPlayersCalls = [[]] := by
  have h := c3_lifecycle gw 28 "Tk" 1 1 tkData gw1 elTk rfl rfl
  have htank : elTk.type.group = some "tank" := rfl
  obtain ⟨h1, h2⟩ := h
  obtain ⟨hp, hc⟩ := h2 htank
  refine ⟨h1, ?_, ?_⟩
  · rw [hp]; rfl
  · rw [hc rfl]; rfl

/-- Claim C4: `removeElement` of a uid absent from the element map is
a no-op — the whole engine state (element map, stage, roster,
callback record) is returned unchanged. -/
theorem c4_removeUnknownNoop (g : GameDisplay) (uid : UID)
    (h : mapGet g.elemList uid = none) :
    removeElement g uid = g := by
  unfold removeElement
  rw [h]

/-- Witness for C4 at a concrete display and unknown uid. -/
theorem c4_removeUnknownNoop_witness :
    mapGet gw.elemList 99 = none ∧ removeElement gw 99 = gw :=
  ⟨rfl, c4_removeUnknownNoop gw 99 rfl⟩

/-- Claim C5: `addElement` with a type name that is not a key of the
element-type catalog raises (the dereference of the absent catalog
entry) instead of installing an element. -/
theorem c5_addUnknownType (g : GameDisplay) (uid : UID) (name : String)
    (x y : ℚ) (rad : Option ℚ) (width height : Option ℚ)
    (bgColor : Option Nat)
    (hcat : mapGet g.elemData name = none) :
    addElement g uid name x y rad width height bgColor
      = .error "TypeError: cannot read properties of undefined" := by
  unfold addElement
  rw [hcat]

/-- Witness for C5: `"Zz"` is not catalogued in `gw`. -/
theorem c5_addUnknownType_witness :
    mapGet gw.elemData "Zz" = none
    ∧ addElement gw 1 "Zz" 1 1 none none none none
        = .error "TypeError: cannot read properties of undefined" :=
  ⟨rfl, c5_addUnknownType gw 1 "Zz" 1 1 none none none none rfl⟩

/-- Claim C10: `addElement` with a uid already present silently
overwrites the mapping — `getElement` afterwards returns the new
element — while the stage keeps every previous container (the stage
only grows by the new element's container) and the player roster and
roster-callback record are untouched. -/
theorem c10_overwrite (g : GameDisplay) (uid : UID) (name : String)
    (x y : ℚ) (data : ElementData) (oldEl : GameElement)
    (g2 : GameDisplay) (el : GameElement)
    (_hold : mapGet g.elemList uid = some oldEl)
    (hcat : mapGet g.elemData name = some data)
    (hadd : addElement g uid name x y none none none none = .ok (g2, el)) :
    getElement g2 uid = some el
    ∧ el.tag = g.nextTag
    ∧ g2.stage = g.stage ++ [el.tag]
    ∧ (oldEl.tag ∈ g.stage → oldEl.tag ∈ g2.stage)
    ∧ g2.players = g.players
    ∧ g2.setPlayersCalls = g.setPlayersCalls := by
  rw [addElement_some g uid name x y none none none none data hcat] at hadd
  simp only [Except.ok.injEq, Prod.mk.injEq] at hadd
  obtain ⟨hg2, hel⟩ := hadd
  subst hg2
  refine ⟨?_, ?_, ?_, ?_, rfl, rfl⟩
  · rw [getElement, ← hel]
    exact mapGet_mapSet_self g.elemList uid _
  · rw [← hel]
  · rw [← hel]
  · intro hmem
    exact List.mem_append_left _ hmem

/-- The stale element bound to uid 28 before the overwrite. -/
def elOld : GameElement := ⟨3, tkData, 1, 1, none, 1, 1, none⟩

/-- A display where uid 28 is already bound, its container is on the
stage, and a player references it. -/
def gOld : GameDisplay :=
  ⟨[("Tk", tkData)], [(28, elOld)], [3], [⟨"B", elOld⟩], true, [], 7⟩

/-- `gOld` after the overwriting `addElement 28 "Tk" 1 1`. -/
def gOld2 : GameDisplay :=
  ⟨[("Tk", tkData)], [(28, elTk)], [3, 7], [⟨"B", elOld⟩], true, [], 8⟩

/-- Witness for C10: overwriting uid 28 leaves the stale container
(tag 3) on the stage and the roster entry for the old element in
place, while `getElement 28` now returns the new element. -/
theorem c10_overwrite_witness :
    addElement gOld 28 "Tk" 1 1 none none none none = .ok (gOld2, elTk)
    ∧ getElement gOld2 28 = some elTk
    ∧ gOld2.players = gOld.players
    ∧ elOld.tag ∈ gOld2.stage := by
  have hadd : addElement gOld 28 "Tk" 1 1 none none none none
      = .ok (gOld2, elTk) := rfl
  have h := c10_overwrite gOld 28 "Tk" 1 1 tkData elOld gOld2 elTk
    rfl rfl hadd
  exact ⟨hadd, h.1, h.2.2.2.2.1, h.2.2.2.1 (by simp [gOld, elOld])⟩

/-- The keydown/keyup listeners of the `GameDisplay` constructor
(game-display.ts lines 85-112): look the key code up in the binding
table; JS truthiness (`if(actionStr)`) skips an absent *or empty*
action name; look the action up in the (external, `action.ts`) press
or release table; send each produced command as
`Math.floor(timer) + " " + cmd`. Returns the list of messages sent on
the socket. -/
def keyCommands (binding : List (String × String))
    (actionTable : String → Option (List String)) (timer : ℚ)
    (code : String) : List String :=
  match mapGet binding code with
  | none => []
  | some actionStr =>
    if actionStr = "" then []
    else
      match actionTable actionStr with
      | none => []
      | some cmds => cmds.map (fun cmd => toString ⌊timer⌋ ++ " " ++ cmd)

/-- Claim C6, corrected: when the key code is bound to a *non-empty*
action name with a registered action producing commands, each command
is sent as `"<floor(timer)> <command>"`, one message per command; an
unbound key code, or an action name with no registered action, sends
nothing. (The original claim without the non-emptiness proviso is
refuted by `c6_keyDispatch_counterexample`: JS truthiness drops a key
bound to the empty action name even when an action is registered for
it.) -/
theorem c6_keyDispatch (binding : List (String × String))
    (actionTable : String → Option (List String)) (timer : ℚ)
    (code : String) :
    (∀ a cmds, mapGet binding code = some a → a ≠ "" →
      actionTable a = some cmds →
      keyCommands binding actionTable timer code
        = cmds.map (fun cmd => toString ⌊timer⌋ ++ " " ++ cmd))
    ∧ (mapGet binding code = none →
        keyCommands binding actionTable timer code = [])
    ∧ (∀ a, mapGet binding code = some a → actionTable a = none →
        keyCommands binding actionTable timer code = []) := by
  refine ⟨?_, ?_, ?_⟩
  · intro a cmds hb hne ha
    simp only [keyCommands, hb]
    rw [if_neg hne, ha]
  · intro hb
    simp only [keyCommands, hb]
  · intro a hb ha
    simp only [keyCommands, hb]
    by_cases he : a = ""
    · rw [if_pos he]
    · rw [if_neg he, ha]

/-- Counterexample to C6 as stated: key `"KeyA"` is bound (to the
empty action name) and the action table registers a command-producing
action for that name, yet nothing is sent — the dispatch drops falsy
action names. -/
theorem c6_keyDispatch_counterexample :
    mapGet [("KeyA", "")] "KeyA" = some ""
    ∧ (fun a => if a = "" then some ["fire"] else none) ""
        = some ["fire"]
    ∧ keyCommands [("KeyA", "")]
        (fun a => if a = "" then some ["fire"] else none) 0 "KeyA" = []
    ∧ keyCommands [("KeyA", "")]
        (fun a => if a = "" then some ["fire"] else none) 0 "KeyA"
        ≠ [toString ⌊(0 : ℚ)⌋ ++ " " ++ "fire"] := by
  refine ⟨rfl, rfl, rfl, ?_⟩
  intro h
  exact List.noConfusion h

/-- Witness for the corrected C6: `"KeyW"` bound to `"forward"`,
which produces one command, at clock 1234.5 — sent as `"1234 fwd"`
(time truncated to an integer). -/
theorem c6_keyDispatch_witness :
    keyCommands [("KeyW", "forward")]
      (fun a => if a = "forward" then some ["fwd"] else none)
      (2469 / 2 : ℚ) "KeyW" = ["1234 fwd"] := by
  have h := (c6_keyDispatch [("KeyW", "forward")]
    (fun a => if a = "forward" then some ["fwd"] else none)
    (2469 / 2 : ℚ) "KeyW").1 "forward" ["fwd"] rfl (by decide) rfl
  rw [h]
  simp only [List.map_cons, List.map_nil]
  norm_num
  rfl

/-- Stimuli that can settle the engine-construction promise of
`initGameDisplay` in the online modes (boot.ts lines 151-169 and
190-208): the socket opening, the socket closing, and the 10000 ms
`setTimeout` firing. -/
inductive ConnEvent where
  | opened
  | closed
  | timedOut
deriving DecidableEq

/-- A settled promise outcome: resolved with the game, or rejected
with a message. -/
inductive Settled where
  | resolved
  | rejected (msg : String)
deriving DecidableEq

/-- State of the construction attempt: the (single-resolution)
promise, whether the WebSocket is open, and the messages sent on it. -/
structure ConnState where
  settled : Option Settled
  socketOpen : Bool
  sent : List String
deriving DecidableEq

/-- A JS promise settles only once; later resolve/reject calls are
no-ops. -/
def settleOnce (s : Option Settled) (v : Settled) : Option Settled :=
  match s with
  | none => some v
  | some w => some w

/-- One stimulus, as handled by `initGameDisplay`'s promise callback:
`onopen` sends the handshake (player name, or `"OBSERVER"`) and
resolves; `onclose` rejects with the connection message; the timeout
rejects with the timed-out message. None of the three ever calls
`socket.close()`. -/
def connStep (addr handshake : String) (s : ConnState) (ev : ConnEvent) :
    ConnState :=
  match ev with
  | .opened =>
    { settled := settleOnce s.settled .resolved,
      socketOpen := true,
      sent := s.sent ++ [handshake] }
  | .closed =>
    { settled := settleOnce s.settled
        (.rejected ("Cannot establish connection to " ++ addr)),
      socketOpen := false,
      sent := s.sent }
  | .timedOut =>
    { s with
      settled := settleOnce s.settled
        (.rejected ("Connection to " ++ addr ++ " timed out.")) }

/-- The construction attempt over a sequence of stimuli in occurrence
order, from a fresh socket. -/
def connRun (addr handshake : String) (events : List ConnEvent) :
    ConnState :=
  events.foldl (connStep addr handshake) ⟨none, false, []⟩

/-- Once the promise has settled, no later stimulus changes it. -/
lemma connRun_settled_frozen (addr handshake : String) :
    ∀ (evs : List ConnEvent) (s : ConnState) (v : Settled),
      s.settled = some v →
      (evs.foldl (connStep addr handshake) s).settled = some v
  | [], _, _, h => h
  | ev :: evs, s, v, h => by
    rw [List.foldl_cons]
    refine connRun_settled_frozen addr handshake evs _ v ?_
    cases ev <;> simp [connStep, settleOnce, h]

/-- Before anything settles the promise, a run of pure timeout
stimuli leaves it either unsettled or rejected with the timed-out
message. -/
lemma connRun_timeouts (addr handshake : String) :
    ∀ (pre : List ConnEvent), (∀ e ∈ pre, e = ConnEvent.timedOut) →
      ∀ (s : ConnState),
        (s.settled = none
          ∨ s.settled = some (.rejected
              ("Connection to " ++ addr ++ " timed out."))) →
        ((pre.foldl (connStep addr handshake) s).settled = none
          ∨ (pre.foldl (connStep addr handshake) s).settled
              = some (.rejected
                  ("Connection to " ++ addr ++ " timed out.")))
  | [], _, s, h => h
  | ev :: evs, hall, s, h => by
    have hev : ev = ConnEvent.timedOut := hall ev (List.mem_cons_self ev evs)
    subst hev
    rw [List.foldl_cons]
    refine connRun_timeouts addr handshake evs
      (fun e he => hall e (List.mem_cons_of_mem _ he)) _ ?_
    rcases h with h | h <;> simp [connStep, settleOnce, h]

/-- Claim C7, corrected: if the timeout fires before the channel
opens or closes, the engine-construction promise settles as a
rejection whose message references the target address — whatever
stimuli follow. (The original claim's "the channel is not left open"
is refuted by `c7_timeout_counterexample`: the code never calls
`socket.close()`, so a connection that completes after the timeout
leaves the channel open and even sends the handshake.) -/
theorem c7_timeout (addr handshake : String)
    (pre post : List ConnEvent)
    (hpre : ∀ e ∈ pre, e = ConnEvent.timedOut) :
    (connRun addr handshake (pre ++ ConnEvent.timedOut :: post)).settled
      = some (.rejected ("Connection to " ++ addr ++ " timed out.")) := by
  unfold connRun
  rw [List.foldl_append, List.foldl_cons]
  have hs := connRun_timeouts addr handshake pre hpre ⟨none, false, []⟩
    (Or.inl rfl)
  refine connRun_settled_frozen addr handshake post _ _ ?_
  rcases hs with h | h <;> simp [connStep, settleOnce, h]

/-- Witness for the corrected C7: the timeout is the only stimulus. -/
theorem c7_timeout_witness :
    (connRun "ws://example" "bob" [ConnEvent.timedOut]).settled
      = some (.rejected "Connection to ws://example timed out.") := by
  have h := c7_timeout "ws://example" "bob" [] []
    (fun e he => absurd he (List.not_mem_nil e))
  simpa using h

/-- Counterexample to C7 as stated: timeout fires first (promise
rejects with the address-referencing message), then the connection
completes — the socket ends up open, with the handshake sent, because
`initGameDisplay` never closes it. -/
theorem c7_timeout_counterexample :
    (connRun "ws://h" "alice" [ConnEvent.timedOut, ConnEvent.opened]).settled
      = some (.rejected "Connection to ws://h timed out.")
    ∧ (connRun "ws://h" "alice"
        [ConnEvent.timedOut, ConnEvent.opened]).socketOpen = true
    ∧ (connRun "ws://h" "alice"
        [ConnEvent.timedOut, ConnEvent.opened]).sent = ["alice"] :=
  ⟨rfl, rfl, rfl⟩
